import Mathlib

/-!
# Verification of the session/token authority of the task-manager backend

Shallow embedding of the session-based authentication core of the repository
(the active variant: an opaque session id bound to a `(userID, expiresAt)`
record in an in-process map), together with the request gate, the duration
configuration helper and the task service's ownership filtering.

Time is modelled as an `Int` count of nanoseconds (Go's `time.Time` /
`time.Duration` granularity); `t.After(u)` is the strict comparison `t > u`.
The session map is modelled as an association list with no duplicate keys;
insertion overwrites, deletion removes the key.  The random source of
`GenerateToken` is an explicit parameter: `none` models a failing
`crypto/rand.Read`, `some sid` models a successful read whose 32 bytes
base64url-encode to `sid` (such an encoding is never the empty string and is
injective, so freshness of the bytes is freshness of the id).
-/

/-! ## Go `time.ParseDuration`, modelled for integer-valued segments

Model of the Go standard library's `time.ParseDuration`, including its int64
overflow errors: the accumulation bounds of `leadingInt`
(`x > 1<<63/10` before a shift, `x > 1<<63` after), the per-segment
`v > 1<<63/unit` check, the running-total `d > 1<<63` check, and the final
rejection of a positive total above `1<<63 - 1` (a negative total of exactly
`-1<<63` is representable and accepted).  The one restriction: a segment with
a fractional part such as `"1.5h"` is rejected here where Go would accept it,
because Go computes the fraction in `float64` arithmetic; no statement below
quantifies over inputs containing `'.'` (the universally quantified ones
range over all-digit values), so the restriction carries no proof weight.
A duration string is an optional sign followed by one or more
`<digits><unit>` segments; the result is a nanosecond count. -/

/-- Nanoseconds per unit, as in Go's `unitMap` (`ns`, `us`, `µs`, `μs`, `ms`,
`s`, `m`, `h`). -/
def unitNanos : String → Option Nat
  | "ns" => some 1
  | "us" => some 1000
  | "µs" => some 1000
  | "μs" => some 1000
  | "ms" => some 1000000
  | "s" => some 1000000000
  | "m" => some 60000000000
  | "h" => some 3600000000000
  | _ => none

/-- Decimal value of a digit list, as accumulated by Go's `leadingInt`. -/
def digitsVal (ds : List Char) : Nat :=
  ds.foldl (fun n c => n * 10 + (c.toNat - '0'.toNat)) 0

/-- Go's `leadingInt`: accumulate the decimal value of the digits with the
int64 overflow checks — error if the accumulator exceeds `1<<63/10` before a
shift or `1<<63` after it; `none` models `errLeadingInt`. -/
def leadingIntVal : Nat → List Char → Option Nat
  | x, [] => some x
  | x, c :: cs =>
    if x > 9223372036854775808 / 10 then none
    else
      let x2 := x * 10 + (c.toNat - '0'.toNat)
      if x2 > 9223372036854775808 then none
      else leadingIntVal x2 cs

/-- Parse the sequence of `<digits><unit>` segments of a duration string,
accumulating the nanosecond total `d` as Go's loop does.  A segment must
start with a digit (Go also allows a leading `.`; fractional segments are
outside this model) and its unit must be a non-empty key of `unitNanos`; a
segment value above `1<<63/unit` and a running total above `1<<63` are
overflow errors.  Each step consumes at least one character, so recursion on
a fuel equal to the input length is total. -/
def parseSegsAux : Nat → Nat → List Char → Option Nat
  | _, d, [] => some d
  | 0, _, _ :: _ => none
  | fuel + 1, d, c :: cs =>
    if c.isDigit then
      let ds := (c :: cs).takeWhile Char.isDigit
      let rest := (c :: cs).dropWhile Char.isDigit
      let us := rest.takeWhile (fun ch => !(ch.isDigit || ch == '.'))
      let rest2 := rest.dropWhile (fun ch => !(ch.isDigit || ch == '.'))
      match leadingIntVal 0 ds with
      | none => none
      | some v =>
        if us = [] then none
        else
          match unitNanos (String.mk us) with
          | none => none
          | some u =>
            if v > 9223372036854775808 / u then none
            else if d + v * u > 9223372036854775808 then none
            else parseSegsAux fuel (d + v * u) rest2
    else none

/-- The segment loop, run with enough fuel for its input and a zero running
total. -/
def parseSegs (cs : List Char) : Option Nat :=
  parseSegsAux cs.length 0 cs

/-- Go's `time.ParseDuration` (integer-segment fragment) on the character
list of the input: optional `+`/`-` sign, the special case `"0"`, then the
segment sum; `none` models a parse error. -/
def parseDurationChars : List Char → Option Int
  | [] => none
  | c :: cs =>
    let neg := c = '-'
    let body := if c = '-' ∨ c = '+' then cs else c :: cs
    if body = ['0'] then some 0
    else if body = [] then none
    else
      match parseSegs body with
      | none => none
      | some n =>
        if neg then some (-(n : Int))
        else if n > 9223372036854775807 then none
        else some (n : Int)

/-- Go's `time.ParseDuration` (integer-segment fragment). -/
def parseDuration (s : String) : Option Int :=
  parseDurationChars s.toList

/-! ## The session store (`pkg/utils`, session variant)

`activeSessions : map[string]sessionData`, modelled as a duplicate-free
association list; `mapInsert` overwrites any existing binding as a Go map
assignment does. -/

/-- The per-session record stored in `activeSessions`. -/
structure sessionData where
  UserID : Nat
  ExpiresAt : Int
deriving DecidableEq, Repr

/-- The global `activeSessions` map. -/
abbrev SessionStore := List (String × sessionData)

/-- Map read: `session, exists := activeSessions[sessionID]`. -/
def mapLookup (store : SessionStore) (k : String) : Option sessionData :=
  (store.find? (fun p => p.1 == k)).map (fun p => p.2)

/-- Map write: `activeSessions[sessionID] = data` (overwrites). -/
def mapInsert (store : SessionStore) (k : String) (v : sessionData) : SessionStore :=
  (k, v) :: store.filter (fun p => p.1 != k)

/-- Map delete: `delete(activeSessions, sessionID)`. -/
def mapDelete (store : SessionStore) (k : String) : SessionStore :=
  store.filter (fun p => p.1 != k)

/-- The TTL string `GenerateToken` parses: the `JWT_EXPIRES_IN` environment
value, or `"24h"` when it is unset/empty. -/
def effectiveExpiresIn (envExpiresIn : String) : String :=
  if envExpiresIn = "" then "24h" else envExpiresIn

/-- Outcome of `GenerateToken`: the `(string, error)` pair. -/
inductive GenResult where
  | ok (sessionID : String)
  | err (msg : String)
deriving DecidableEq, Repr

/-- `GenerateToken(userID)`: on a successful random read, parse the TTL from
the environment (default `"24h"`), insert `(sessionID ↦ {userID, now+ttl})`
and return the id; a failing random read or an unparsable TTL value returns
an error. -/
def GenerateToken (randSessionID : Option String) (envExpiresIn : String)
    (now : Int) (userID : Nat) (store : SessionStore) : GenResult × SessionStore :=
  match randSessionID with
  | none => (.err "failed to generate random bytes", store)
  | some sessionID =>
    match parseDuration (effectiveExpiresIn envExpiresIn) with
    | none => (.err "invalid JWT_EXPIRES_IN value", store)
    | some expiresIn =>
      (.ok sessionID, mapInsert store sessionID ⟨userID, now + expiresIn⟩)

/-- The three failure kinds of `ValidateToken` (the spec's `EmptyCredential`,
`NotFound`, `Expired`). -/
inductive TokenError where
  | emptySessionID
  | invalidSession
  | sessionExpired
deriving DecidableEq, Repr

/-- The `error.Error()` string of each failure kind. -/
def TokenError.message : TokenError → String
  | .emptySessionID => "empty session ID"
  | .invalidSession => "invalid session"
  | .sessionExpired => "session expired"

/-- Outcome of `ValidateToken`: the `(uint, error)` pair. -/
inductive ValResult where
  | ok (userID : Nat)
  | err (e : TokenError)
deriving DecidableEq, Repr

/-- `ValidateToken(sessionID)`: empty id fails; an absent id fails; an entry
with `time.Now().After(expiresAt)` (strictly `now > expiresAt`) is deleted and
fails as expired; otherwise the bound user id is returned and the store is
untouched. -/
def ValidateToken (now : Int) (sessionID : String) (store : SessionStore) :
    ValResult × SessionStore :=
  if sessionID = "" then (.err .emptySessionID, store)
  else
    match mapLookup store sessionID with
    | none => (.err .invalidSession, store)
    | some session =>
      if now > session.ExpiresAt then (.err .sessionExpired, mapDelete store sessionID)
      else (.ok session.UserID, store)

/-- `CleanupSessions()`: delete every entry with `now.After(expiresAt)`
(strictly `now > expiresAt`). -/
def CleanupSessions (now : Int) (store : SessionStore) : SessionStore :=
  store.filter (fun p => !(decide (now > p.2.ExpiresAt)))

/-! ## The request gate (`AuthMiddleware`, session variant)

The middleware's input from the framework is the string
`c.GetHeader("Authorization")`, which is the empty string exactly when the
header is absent; its other collaborator, the user table consulted by
`database.GetDB().First(&user, userID)`, is modelled by the list of user ids
present in the database.  Every rejection is `c.JSON(401, ...)` followed by
`c.Abort()`. -/

/-- Outcome of the middleware on one request: a 401 rejection with its
message, or passing the request on with `(userID)` attached to the context. -/
inductive AuthOutcome where
  | reject (status : Nat) (message : String)
  | pass (userID : Nat)
deriving DecidableEq, Repr

/-- Go `unicode.IsSpace`, restricted to the Latin-1 range it special-cases
(`\t`, `\n`, `\v`, `\f`, `\r`, space, NEL, NBSP); spaces beyond Latin-1 are
outside this model. -/
def goIsSpace (c : Char) : Bool :=
  c == ' ' || c == '\t' || c == '\n' || (c == Char.ofNat 11) ||
    (c == Char.ofNat 12) || (c == Char.ofNat 13) || (c == Char.ofNat 133) ||
    (c == Char.ofNat 160)

/-- Go `strings.TrimSpace`: drop leading and trailing white space. -/
def trimSpace (s : String) : String :=
  String.mk (((s.toList.dropWhile goIsSpace).reverse.dropWhile goIsSpace).reverse)

/-- `AuthMiddleware`: missing header rejects with 401; otherwise the raw
header value is trimmed of surrounding whitespace (no scheme required)
and handed to `ValidateToken`; a validation failure rejects with 401 and
`"Invalid session: " + err.Error()`; a validated but absent user rejects with
401; otherwise the request passes with the user id attached.  The session
store is threaded because `ValidateToken` may delete an expired entry. -/
def AuthMiddleware (authHeader : String) (now : Int) (store : SessionStore)
    (users : List Nat) : AuthOutcome × SessionStore :=
  if authHeader = "" then (.reject 401 "Authorization header is required", store)
  else
    let sessionID := trimSpace authHeader
    let res := ValidateToken now sessionID store
    match res.1 with
    | .err e => (.reject 401 ("Invalid session: " ++ e.message), res.2)
    | .ok userID =>
      if users.contains userID then (.pass userID, res.2)
      else (.reject 401 "User not found or invalid session", res.2)

/-! ## The configuration helper (`config.getDurationEnvOrDefault`) -/

/-- `strings.ContainsAny(value, "hms")`: some character of `value` is `h`,
`m` or `s`. -/
def containsAnyHMS (value : String) : Bool :=
  value.toList.any (fun c => c == 'h' || c == 'm' || c == 's')

/-- `getDurationEnvOrDefault(key, default)`, applied to the value read from
the environment: empty means unset and yields the default; a value with no
`h`/`m`/`s` character gets `"h"` appended before parsing; an unparsable value
falls back to the default. -/
def getDurationEnvOrDefault (value : String) (defaultValue : Int) : Int :=
  if value = "" then defaultValue
  else
    let v := if !containsAnyHMS value then value ++ "h" else value
    match parseDuration v with
    | none => defaultValue
    | some duration => duration

/-! ## The task service (`internal/services/task_service.go`)

The Record Store collaborator is modelled as the list of task rows in
primary-key order; gorm's soft delete is the `Deleted` marker, and every
query filters it out.  `First` returns the first match in that order; `Save`
writes the record with the same primary key; `Delete` marks the row deleted.
An `ORDER BY` on a string that is not a column of the table makes the
underlying SQL query fail, modelled as the error branch of `GetTasks`. -/

namespace models

/-- The `tasks` table row (`models.Task`); timestamps are nanosecond counts
and `Deleted` is the `gorm.DeletedAt` soft-delete marker. -/
structure Task where
  ID : Nat
  UserID : Nat
  Title : String
  Description : String
  DueDate : Option Int
  Priority : String
  Status : String
  CreatedAt : Int
  UpdatedAt : Int
  Deleted : Bool
deriving DecidableEq, Repr

end models

namespace services

/-- `TaskRequest`: create/update payload. -/
structure TaskRequest where
  Title : String
  Description : String
  DueDate : Option Int
  Priority : String
  UserID : Nat
deriving DecidableEq, Repr

/-- `TaskStatusRequest`: status-update payload. -/
structure TaskStatusRequest where
  Status : String
  UserID : Nat
deriving DecidableEq, Repr

/-- `TaskFilterOptions`: list-query options (Go `int` pages modelled as
`Int` so the `< 1` defaulting is as in the source). -/
structure TaskFilterOptions where
  UserID : Nat
  Status : String
  Priority : String
  SortBy : String
  Order : String
  Page : Int
  PageSize : Int
deriving DecidableEq, Repr

/-- `PaginatedTasksResponse`. -/
structure PaginatedTasksResponse where
  Tasks : List models.Task
  CurrentPage : Int
  PageSize : Int
  TotalItems : Int
  TotalPages : Int
deriving DecidableEq, Repr

/-- The task rows, in primary-key order. -/
abbrev TaskDB := List models.Task

/-- Result of a task operation returning `(*models.Task, error)`. -/
inductive TaskResult where
  | ok (task : models.Task)
  | err (msg : String)
deriving DecidableEq, Repr

/-- Result of `GetTasks`. -/
inductive TasksResult where
  | ok (resp : PaginatedTasksResponse)
  | err (msg : String)
deriving DecidableEq, Repr

/-- The row predicate of `Where("id = ? AND user_id = ?", taskID, userID)`
under gorm's implicit soft-delete filter. -/
def ownedTaskRow (taskID userID : Nat) (t : models.Task) : Bool :=
  !t.Deleted && t.ID == taskID && t.UserID == userID

/-- `GetTaskByID(taskID, userID)`: first row matching both ids, or
`"task not found"`. -/
def GetTaskByID (db : TaskDB) (taskID userID : Nat) : TaskResult :=
  match db.find? (ownedTaskRow taskID userID) with
  | none => .err "task not found"
  | some task => .ok task

/-- gorm `Save`: write the record over the row with the same primary key. -/
def dbSave (db : TaskDB) (t : models.Task) : TaskDB :=
  db.map (fun u => if u.ID == t.ID then t else u)

/-- `UpdateTask(taskID, req)`: fetch via `GetTaskByID` (ownership filter),
then overwrite title/description/due date (and priority when non-empty) and
save. -/
def UpdateTask (db : TaskDB) (taskID : Nat) (req : TaskRequest) :
    TaskResult × TaskDB :=
  match GetTaskByID db taskID req.UserID with
  | .err msg => (.err msg, db)
  | .ok task =>
    let task2 := { task with
      Title := req.Title
      Description := req.Description
      DueDate := req.DueDate
      Priority := if req.Priority != "" then req.Priority else task.Priority }
    (.ok task2, dbSave db task2)

/-- `UpdateTaskStatus(taskID, req)`: fetch via `GetTaskByID`, set the status
and save. -/
def UpdateTaskStatus (db : TaskDB) (taskID : Nat) (req : TaskStatusRequest) :
    TaskResult × TaskDB :=
  match GetTaskByID db taskID req.UserID with
  | .err msg => (.err msg, db)
  | .ok task =>
    let task2 := { task with Status := req.Status }
    (.ok task2, dbSave db task2)

/-- `DeleteTask(taskID, userID)`: fetch via `GetTaskByID`, then soft-delete
the row; returns the error message, if any. -/
def DeleteTask (db : TaskDB) (taskID userID : Nat) : Option String × TaskDB :=
  match GetTaskByID db taskID userID with
  | .err msg => (some msg, db)
  | .ok task =>
    (none, db.map (fun u => if u.ID == task.ID then { u with Deleted := true } else u))

/-- The sortable columns of the `tasks` table. -/
inductive Column where
  | created_at
  | updated_at
  | due_date
  | priority
  | status
  | title
  | id
  | user_id
deriving DecidableEq, Repr

/-- Resolve the `ORDER BY` column name; an unknown name makes the SQL query
fail. -/
def columnOf : String → Option Column
  | "created_at" => some .created_at
  | "updated_at" => some .updated_at
  | "due_date" => some .due_date
  | "priority" => some .priority
  | "status" => some .status
  | "title" => some .title
  | "id" => some .id
  | "user_id" => some .user_id
  | _ => none

/-- String comparison for `ORDER BY` on text columns. -/
def strLE (a b : String) : Bool :=
  a == b || decide (a < b)

/-- Ascending comparison on one column (`NULL` due dates sort first, as in
MySQL ascending order). -/
def colLE (col : Column) (t u : models.Task) : Bool :=
  match col with
  | .created_at => decide (t.CreatedAt ≤ u.CreatedAt)
  | .updated_at => decide (t.UpdatedAt ≤ u.UpdatedAt)
  | .due_date =>
    match t.DueDate, u.DueDate with
    | none, _ => true
    | some _, none => false
    | some a, some b => decide (a ≤ b)
  | .priority => strLE t.Priority u.Priority
  | .status => strLE t.Status u.Status
  | .title => strLE t.Title u.Title
  | .id => decide (t.ID ≤ u.ID)
  | .user_id => decide (t.UserID ≤ u.UserID)

/-- The comparison used by `Order(sortBy + " " + order)`. -/
def taskLE (col : Column) (ord : String) (t u : models.Task) : Bool :=
  if ord == "desc" then colLE col u t else colLE col t u

/-- Insert into a sorted list (the sort underlying `ORDER BY`). -/
def insertSorted (le : models.Task → models.Task → Bool) (t : models.Task) :
    List models.Task → List models.Task
  | [] => [t]
  | u :: us => if le t u then t :: u :: us else u :: insertSorted le t us

/-- Sort the result set (insertion sort; any sort realises `ORDER BY`). -/
def sortTasks (le : models.Task → models.Task → Bool) (l : List models.Task) :
    List models.Task :=
  l.foldr (insertSorted le) []

/-- `GetTasks(options)`: default/clamp the pagination, filter by owner and
the optional status/priority filters, count, sort, and slice one page. -/
def GetTasks (db : TaskDB) (options : TaskFilterOptions) : TasksResult :=
  let page := if options.Page < 1 then 1 else options.Page
  let pageSize :=
    if options.PageSize < 1 then 10
    else if options.PageSize > 100 then 100
    else options.PageSize
  let offset := (page - 1) * pageSize
  let matching := db.filter (fun t =>
    !t.Deleted && t.UserID == options.UserID &&
    (options.Status == "" || t.Status == options.Status) &&
    (options.Priority == "" || t.Priority == options.Priority))
  let sortBy := if options.SortBy == "" then "created_at" else options.SortBy
  let ord := if options.Order == "" then "desc" else options.Order
  match columnOf sortBy with
  | none => .err "failed to retrieve tasks"
  | some col =>
    if ord != "asc" && ord != "desc" then .err "failed to retrieve tasks"
    else
      let totalTasks : Int := matching.length
      let sorted := sortTasks (taskLE col ord) matching
      let tasks := (sorted.drop offset.toNat).take pageSize.toNat
      let totalPages := (totalTasks + pageSize - 1) / pageSize
      .ok ⟨tasks, page, pageSize, totalTasks, totalPages⟩

end services

example : parseDuration "24h" = some 86400000000000 := by decide
example : parseDuration "48" = none := by decide
example : parseDuration "" = none := by decide
example : parseDuration "0" = some 0 := by decide
example : parseDuration "1h30m" = some 5400000000000 := by decide
example : parseDuration "-2s" = some (-2000000000) := by decide
example : parseDuration "300ms" = some 300000000 := by decide
example : getDurationEnvOrDefault "" 86400000000000 = 86400000000000 := by decide
example : getDurationEnvOrDefault "48" 86400000000000 = 48 * 3600000000000 := by decide
example : getDurationEnvOrDefault "30m" 86400000000000 = 1800000000000 := by decide
example : getDurationEnvOrDefault "zzz" 86400000000000 = 86400000000000 := by decide
example : parseDuration "2562047h" = some 9223369200000000000 := by decide
example : parseDuration "2562048h" = none := by decide
example : getDurationEnvOrDefault "2562048" 86400000000000 = 86400000000000 := by
  decide
example : parseDuration "9223372036854775807ns" = some 9223372036854775807 := by
  decide
example : parseDuration "9223372036854775808ns" = none := by decide
example : parseDuration "-9223372036854775808ns" = some (-9223372036854775808) := by
  decide
example : parseDuration "9223372036854775809ns" = none := by decide
example :
    AuthMiddleware "  tok " 0 [("tok", ⟨7, 100⟩)] [7] = (.pass 7, [("tok", ⟨7, 100⟩)]) := by
  decide

/-! ## Store lemmas -/

/-- Reading back a key just written returns the value written. -/
theorem mapLookup_mapInsert_self (store : SessionStore) (k : String) (v : sessionData) :
    mapLookup (mapInsert store k v) k = some v := by
  simp [mapLookup, mapInsert, List.find?_cons_of_pos]

/-- A deleted key is absent. -/
theorem mapLookup_mapDelete_self (store : SessionStore) (k : String) :
    mapLookup (mapDelete store k) k = none := by
  simp only [mapLookup, mapDelete, Option.map_eq_none', List.find?_eq_none]
  intro p hp
  have hne := (List.mem_filter.mp hp).2
  simpa [bne_iff_ne] using hne

/-- Entries of a store none of whose keys is `k` are untouched by the
overwrite filter of `mapInsert`. -/
theorem filter_ne_key_of_fresh (store : SessionStore) (k : String)
    (hfresh : ∀ v, (k, v) ∉ store) :
    store.filter (fun p => p.1 != k) = store := by
  apply List.filter_eq_self.mpr
  intro p hp
  have : p.1 ≠ k := by
    intro h
    exact hfresh p.2 (by simpa [← h] using hp)
  simpa [bne_iff_ne] using this

/-! ## Claim C1 -/

/-- C1: for every `userID`, validating the session identifier returned by a
successful `Issue(userID)` — immediately after issuance and at any time
strictly before the session's `expiresAt = now + ttl` — returns that same
`userID` with no error. -/
theorem C1_validate_after_issue (userID : Nat) (store : SessionStore)
    (sid env : String) (d now t : Int)
    (hsid : sid ≠ "")
    (hparse : parseDuration (effectiveExpiresIn env) = some d)
    (ht : t < now + d) :
    (GenerateToken (some sid) env now userID store).1 = .ok sid ∧
    (ValidateToken t sid (GenerateToken (some sid) env now userID store).2).1
      = .ok userID := by
  simp only [GenerateToken, hparse]
  refine ⟨trivial, ?_⟩
  simp only [ValidateToken, if_neg hsid, mapLookup_mapInsert_self]
  have : ¬ t > now + d := by omega
  simp [this]

/-- Closed instance of `C1_validate_after_issue` (default TTL, fresh store),
with every hypothesis discharged by evaluation. -/
theorem C1_witness :
    ("x" ≠ "" ∧ parseDuration (effectiveExpiresIn "") = some 86400000000000 ∧
      (0 : Int) < 0 + 86400000000000) ∧
    ((GenerateToken (some "x") "" 0 7 []).1 = .ok "x" ∧
      (ValidateToken 0 "x" (GenerateToken (some "x") "" 0 7 []).2).1 = .ok 7) :=
  ⟨⟨by decide, by decide, by decide⟩,
    C1_validate_after_issue 7 [] "x" "" 86400000000000 0 0 (by decide) (by decide)
      (by decide)⟩

/-! ## Claim C2

The claim says validation fails as expired when `now >= expiresAt`; the code
tests `time.Now().After(expiresAt)`, which is strict, so a session validated
exactly at its expiry instant still succeeds.  The lazy eviction and the
`NotFound` on a second call hold for `now > expiresAt`. -/

/-- C2 counterexample: a session with `expiresAt = 100` validated at
`now = 100` (so `now ≥ expiresAt`) succeeds and stays in the store, where the
claim requires the `Expired` failure and removal. -/
theorem C2_counterexample :
    (100 : Int) ≥ 100 ∧
    ValidateToken 100 "s" [("s", ⟨7, 100⟩)] = (.ok 7, [("s", ⟨7, 100⟩)]) := by
  decide

/-- C2 (amended): for a session in the store, validation at `now > expiresAt`
fails as expired and removes the entry, so a second validation at the same
time fails as not-found; validation at `now ≤ expiresAt` (including the
expiry instant itself) returns the bound user id and leaves the store — and
hence the session's TTL — unchanged. -/
theorem C2_expired_eviction (store : SessionStore) (sid : String) (uid : Nat)
    (expAt now : Int)
    (hsid : sid ≠ "") (hlook : mapLookup store sid = some ⟨uid, expAt⟩) :
    (now > expAt →
      ValidateToken now sid store = (.err .sessionExpired, mapDelete store sid) ∧
      (ValidateToken now sid (mapDelete store sid)).1 = .err .invalidSession) ∧
    (now ≤ expAt → ValidateToken now sid store = (.ok uid, store)) := by
  constructor
  · intro hgt
    constructor
    · simp [ValidateToken, if_neg hsid, hlook, hgt]
    · simp [ValidateToken, if_neg hsid, mapLookup_mapDelete_self]
  · intro hle
    have : ¬ now > expAt := by omega
    simp [ValidateToken, if_neg hsid, hlook, this]

/-- Closed instance of `C2_expired_eviction`: a session expired at 100,
validated at 200, is evicted exactly once and then not found. -/
theorem C2_witness :
    ("s" ≠ "" ∧ mapLookup [("s", ⟨7, 100⟩)] "s" = some ⟨7, 100⟩ ∧
      (200 : Int) > 100) ∧
    (ValidateToken 200 "s" [("s", ⟨7, 100⟩)]
        = (.err .sessionExpired, mapDelete [("s", ⟨7, 100⟩)] "s") ∧
      (ValidateToken 200 "s" (mapDelete [("s", ⟨7, 100⟩)] "s")).1
        = .err .invalidSession) :=
  ⟨⟨by decide, by decide, by decide⟩,
    (C2_expired_eviction [("s", ⟨7, 100⟩)] "s" 7 100 200 (by decide) (by decide)).1
      (by decide)⟩

/-! ## Claim C3

The claim says `Sweep` removes exactly the entries with `expiresAt <= now`;
the code removes an entry only when `now.After(expiresAt)`, i.e. strictly
`expiresAt < now`, so an entry expiring exactly at `now` survives. -/

/-- C3 counterexample: an entry with `expiresAt = 100 ≤ now = 100` survives
`Sweep`, where the claim requires its removal. -/
theorem C3_counterexample :
    (100 : Int) ≤ 100 ∧
    CleanupSessions 100 [("s", ⟨7, 100⟩)] = [("s", ⟨7, 100⟩)] := by
  decide

/-- C3 (amended): `Sweep` removes all and only the entries with
`expiresAt < now` (strictly); every session with `expiresAt ≥ now` survives
an arbitrary number of `Sweep` calls. -/
theorem C3_sweep_exact (now : Int) (store : SessionStore) :
    (∀ k v, (k, v) ∈ CleanupSessions now store ↔
      ((k, v) ∈ store ∧ now ≤ v.ExpiresAt)) ∧
    (∀ n k v, (k, v) ∈ store → now ≤ v.ExpiresAt →
      (k, v) ∈ (CleanupSessions now)^[n] store) := by
  have hmem : ∀ (s : SessionStore) k v, (k, v) ∈ CleanupSessions now s ↔
      ((k, v) ∈ s ∧ now ≤ v.ExpiresAt) := by
    intro s k v
    simp only [CleanupSessions, List.mem_filter, Bool.not_eq_true', decide_eq_false_iff_not]
    constructor
    · rintro ⟨h1, h2⟩
      exact ⟨h1, by omega⟩
    · rintro ⟨h1, h2⟩
      exact ⟨h1, by omega⟩
  have hiter : ∀ n (s : SessionStore) k v, (k, v) ∈ s → now ≤ v.ExpiresAt →
      (k, v) ∈ (CleanupSessions now)^[n] s := by
    intro n
    induction n with
    | zero => intro s k v hin _; simpa using hin
    | succ m ih =>
      intro s k v hin hle
      rw [Function.iterate_succ_apply]
      exact ih _ k v ((hmem _ k v).mpr ⟨hin, hle⟩) hle
  exact ⟨hmem store, fun n => hiter n store⟩

/-- Closed instance of `C3_sweep_exact`: an unexpired session survives three
consecutive sweeps. -/
theorem C3_witness :
    (("s", sessionData.mk 7 100) ∈ ([("s", ⟨7, 100⟩)] : SessionStore) ∧
      (50 : Int) ≤ 100) ∧
    ("s", sessionData.mk 7 100) ∈ (CleanupSessions 50)^[3] [("s", ⟨7, 100⟩)] :=
  ⟨⟨by decide, by decide⟩,
    (C3_sweep_exact 50 [("s", ⟨7, 100⟩)]).2 3 "s" ⟨7, 100⟩ (by decide) (by decide)⟩

/-! ## Claim C4

The claim says `Issue` fails only if the random source fails; the code also
fails — without touching the store — when the `JWT_EXPIRES_IN` value does
not parse as a duration. -/

/-- C4 counterexample: with a successful random source but
`JWT_EXPIRES_IN=garbage`, `GenerateToken` returns an error and issues
nothing, where the claim says a failure can only come from the random
source. -/
theorem C4_counterexample :
    GenerateToken (some "x") "garbage" 0 7 []
      = (.err "invalid JWT_EXPIRES_IN value", []) := by
  decide

/-- C4 (amended): `Issue` fails exactly when the random source fails or the
configured TTL value fails to parse; when the random source succeeds and the
effective TTL string parses to `d`, it inserts a record with
`expiresAt = now + d` and returns the identifier without error. -/
theorem C4_issue_failure_modes (randSessionID : Option String) (env : String)
    (now : Int) (uid : Nat) (store : SessionStore) :
    ((∃ msg, (GenerateToken randSessionID env now uid store).1 = .err msg) ↔
      (randSessionID = none ∨ parseDuration (effectiveExpiresIn env) = none)) ∧
    (∀ sid d, randSessionID = some sid →
      parseDuration (effectiveExpiresIn env) = some d →
      GenerateToken randSessionID env now uid store
        = (.ok sid, mapInsert store sid ⟨uid, now + d⟩)) := by
  constructor
  · constructor
    · rintro ⟨msg, hmsg⟩
      cases randSessionID with
      | none => exact Or.inl rfl
      | some sid =>
        cases hp : parseDuration (effectiveExpiresIn env) with
        | none => exact Or.inr rfl
        | some d => simp [GenerateToken, hp] at hmsg
    · rintro (h | h)
      · subst h
        exact ⟨"failed to generate random bytes", rfl⟩
      · cases randSessionID with
        | none => exact ⟨"failed to generate random bytes", rfl⟩
        | some sid =>
          exact ⟨"invalid JWT_EXPIRES_IN value", by simp [GenerateToken, h]⟩
  · rintro sid d rfl hp
    simp [GenerateToken, hp]

/-- Closed instance of `C4_issue_failure_modes`: issuance with the default
TTL inserts a record expiring 24 hours after `now = 0`. -/
theorem C4_witness :
    (some "x" = some "x" ∧
      parseDuration (effectiveExpiresIn "") = some 86400000000000) ∧
    GenerateToken (some "x") "" 0 7 []
      = (.ok "x", mapInsert [] "x" ⟨7, 0 + 86400000000000⟩) :=
  ⟨⟨rfl, by decide⟩,
    (C4_issue_failure_modes (some "x") "" 0 7 []).2 "x" 86400000000000 rfl
      (by decide)⟩

/-! ## Claim C5 -/

/-- C5: the request gate rejects with 401 `"Authorization header is
required"` exactly when the `Authorization` header is absent (the framework
hands the middleware the empty string in that case); otherwise it passes the
header value trimmed of surrounding whitespace — with no scheme required —
to `Validate`, rejects with 401 on any validation failure, and otherwise
continues with the resolved user. -/
theorem C5_request_gate (authHeader : String) (now : Int) (store : SessionStore)
    (users : List Nat) :
    ((AuthMiddleware authHeader now store users).1
        = .reject 401 "Authorization header is required" ↔ authHeader = "") ∧
    (∀ e store1, authHeader ≠ "" →
      ValidateToken now (trimSpace authHeader) store = (.err e, store1) →
      AuthMiddleware authHeader now store users
        = (.reject 401 ("Invalid session: " ++ e.message), store1)) ∧
    (∀ userID store1, authHeader ≠ "" →
      ValidateToken now (trimSpace authHeader) store = (.ok userID, store1) →
      AuthMiddleware authHeader now store users
        = (if users.contains userID then (.pass userID, store1)
          else (.reject 401 "User not found or invalid session", store1))) := by
  refine ⟨⟨?_, ?_⟩, ?_, ?_⟩
  · intro hres
    by_contra hne
    rcases hval : ValidateToken now (trimSpace authHeader) store with ⟨r, s1⟩
    simp only [AuthMiddleware, if_neg hne, hval] at hres
    cases r with
    | err e =>
      dsimp only at hres
      cases e <;> exact absurd hres (by decide)
    | ok userID =>
      dsimp only at hres
      cases hc : users.contains userID <;> rw [hc] at hres <;> simp at hres
  · intro h
    subst h
    rfl
  · intro e store1 hne hval
    simp [AuthMiddleware, if_neg hne, hval]
  · intro userID store1 hne hval
    by_cases hc : users.contains userID <;>
      simp [AuthMiddleware, if_neg hne, hval, hc]

/-- Closed instance of `C5_request_gate`: an unknown credential is rejected
with 401 and the message derived from the `NotFound` failure kind. -/
theorem C5_witness :
    ("zzz" ≠ "" ∧ ValidateToken 0 (trimSpace "zzz") [] = (.err .invalidSession, [])) ∧
    AuthMiddleware "zzz" 0 [] []
      = (.reject 401 ("Invalid session: " ++ TokenError.invalidSession.message), []) :=
  ⟨⟨by decide, by decide⟩,
    (C5_request_gate "zzz" 0 [] []).2.1 .invalidSession [] (by decide) (by decide)⟩

/-! ## Claim C7 -/

/-- C7: no session is mutated after creation.  `Issue` of a fresh identifier
only adds its entry, keeping every existing entry; the store after `Validate`
is a subset of the store before (entries are deleted, never changed), and
`Validate` of a non-expired session leaves the store identical; `Sweep` only
deletes entries. -/
theorem C7_sessions_immutable (store : SessionStore) (env : String)
    (now t : Int) (uid : Nat) (sid : String) :
    ((∀ v, (sid, v) ∉ store) → ∀ k w, (k, w) ∈ store →
      (k, w) ∈ (GenerateToken (some sid) env now uid store).2) ∧
    (∀ k w, (k, w) ∈ (ValidateToken t sid store).2 → (k, w) ∈ store) ∧
    (∀ s e, mapLookup store sid = some ⟨s, e⟩ → t ≤ e →
      (ValidateToken t sid store).2 = store) ∧
    (∀ k w, (k, w) ∈ CleanupSessions now store → (k, w) ∈ store) := by
  refine ⟨?_, ?_, ?_, ?_⟩
  · intro hfresh k w hin
    cases hp : parseDuration (effectiveExpiresIn env) with
    | none => simpa [GenerateToken, hp] using hin
    | some d =>
      simp only [GenerateToken, hp, mapInsert, filter_ne_key_of_fresh store sid hfresh]
      exact List.mem_cons_of_mem _ hin
  · intro k w hin
    by_cases hsid : sid = ""
    · simpa [ValidateToken, hsid] using hin
    · cases hl : mapLookup store sid with
      | none => simpa [ValidateToken, hsid, hl] using hin
      | some session =>
        by_cases hexp : t > session.ExpiresAt
        · simp only [ValidateToken, if_neg hsid, hl, if_pos hexp] at hin
          exact (List.mem_filter.mp hin).1
        · simpa [ValidateToken, hsid, hl, hexp] using hin
  · intro s e hl hle
    by_cases hsid : sid = ""
    · simp [ValidateToken, hsid]
    · have : ¬ t > e := by omega
      simp [ValidateToken, hsid, hl, this]
  · intro k w hin
    exact (List.mem_filter.mp hin).1

/-- Closed instance of `C7_sessions_immutable`: issuing a second session
keeps the first entry, and validating it leaves the store identical. -/
theorem C7_witness :
    ((∀ v, ("y", v) ∉ ([("x", ⟨7, 100⟩)] : SessionStore)) ∧
      mapLookup [("x", sessionData.mk 7 100)] "y" = none ∧ (0 : Int) ≤ 100) ∧
    ("x", sessionData.mk 7 100) ∈ (GenerateToken (some "y") "" 0 8 [("x", ⟨7, 100⟩)]).2 :=
  ⟨⟨fun v => by simp, by decide, by decide⟩,
    (C7_sessions_immutable [("x", ⟨7, 100⟩)] "" 0 0 8 "y").1
      (fun v => by simp) "x" ⟨7, 100⟩ (by decide)⟩

/-! ## Claim C9 -/

/-- C9: validating the empty string fails with the empty-credential outcome,
and validating any non-empty identifier absent from the store fails with the
not-found outcome; neither touches the store. -/
theorem C9_empty_and_absent (now : Int) (store : SessionStore) (sid : String) :
    ValidateToken now "" store = (.err .emptySessionID, store) ∧
    (sid ≠ "" → mapLookup store sid = none →
      ValidateToken now sid store = (.err .invalidSession, store)) := by
  constructor
  · rfl
  · intro hsid hl
    simp [ValidateToken, hsid, hl]

/-- Closed instance of `C9_empty_and_absent`: `Validate("not-a-real-id")` on
an empty store is `NotFound`. -/
theorem C9_witness :
    ("not-a-real-id" ≠ "" ∧ mapLookup [] "not-a-real-id" = none) ∧
    ValidateToken 0 "not-a-real-id" [] = (.err .invalidSession, []) :=
  ⟨⟨by decide, by decide⟩,
    (C9_empty_and_absent 0 [] "not-a-real-id").2 (by decide) (by decide)⟩

/-! ## Claim C10 -/

/-- C10: `Issue` is atomic with respect to the session store: whenever
`GenerateToken` returns an error — a random-source failure or an unparsable
TTL value — the store is left exactly as it was. -/
theorem C10_issue_atomic (randSessionID : Option String) (env : String)
    (now : Int) (uid : Nat) (store : SessionStore) (msg : String)
    (herr : (GenerateToken randSessionID env now uid store).1 = .err msg) :
    (GenerateToken randSessionID env now uid store).2 = store := by
  cases randSessionID with
  | none => rfl
  | some sid =>
    cases hp : parseDuration (effectiveExpiresIn env) with
    | none => simp [GenerateToken, hp]
    | some d => simp [GenerateToken, hp] at herr

/-- Closed instance of `C10_issue_atomic`: a failing random source leaves the
store empty. -/
theorem C10_witness :
    (GenerateToken none "" 0 0 []).1 = .err "failed to generate random bytes" ∧
    (GenerateToken none "" 0 0 []).2 = [] :=
  ⟨by decide, C10_issue_atomic none "" 0 0 [] "failed to generate random bytes"
    (by decide)⟩

/-! ## Claim C6

The claim says a TTL value supplied without a unit suffix is interpreted in
hours.  That holds for the configuration helper
`config.getDurationEnvOrDefault`, which appends `"h"` before parsing, but the
session-variant `GenerateToken` parses the raw `JWT_EXPIRES_IN` value, for
which a unitless value is a parse error: no hour interpretation, and no
session issued. -/

/-- `takeWhile` swallows a prefix all of whose elements satisfy `p`, up to an
element that does not. -/
theorem takeWhile_all_append_single (p : Char → Bool) (ds : List Char) (x : Char)
    (hds : ∀ c ∈ ds, p c = true) (hx : p x = false) :
    (ds ++ [x]).takeWhile p = ds := by
  induction ds with
  | nil => simp [List.takeWhile_cons, hx]
  | cons c cs ih =>
    have hc := hds c (by simp)
    simp only [List.cons_append, List.takeWhile_cons, hc, if_true]
    rw [ih (fun a ha => hds a (by simp [ha]))]

/-- `dropWhile` counterpart of `takeWhile_all_append_single`. -/
theorem dropWhile_all_append_single (p : Char → Bool) (ds : List Char) (x : Char)
    (hds : ∀ c ∈ ds, p c = true) (hx : p x = false) :
    (ds ++ [x]).dropWhile p = [x] := by
  induction ds with
  | nil => simp [List.dropWhile_cons, hx]
  | cons c cs ih =>
    have hc := hds c (by simp)
    simp only [List.cons_append, List.dropWhile_cons, hc, if_true]
    exact ih (fun a ha => hds a (by simp [ha]))

/-- The decimal accumulation never decreases below its seed. -/
theorem le_foldl_digitsVal (ds : List Char) :
    ∀ x : Nat, x ≤ ds.foldl (fun n c => n * 10 + (c.toNat - '0'.toNat)) x := by
  induction ds with
  | nil => intro x; exact le_refl x
  | cons c cs ih =>
    intro x
    rw [List.foldl_cons]
    exact le_trans (by omega) (ih (x * 10 + (c.toNat - '0'.toNat)))

/-- When the final decimal value stays within `1<<63`, every intermediate
overflow check of `leadingIntVal` passes and it returns that value. -/
theorem leadingIntVal_some (ds : List Char) :
    ∀ x : Nat,
    ds.foldl (fun n c => n * 10 + (c.toNat - '0'.toNat)) x ≤ 9223372036854775808 →
    leadingIntVal x ds
      = some (ds.foldl (fun n c => n * 10 + (c.toNat - '0'.toNat)) x) := by
  induction ds with
  | nil => intro x h; rfl
  | cons c cs ih =>
    intro x h
    rw [List.foldl_cons] at h ⊢
    have hy : x * 10 + (c.toNat - '0'.toNat) ≤ 9223372036854775808 :=
      le_trans (le_foldl_digitsVal cs _) h
    have hx : ¬ x > 9223372036854775808 / 10 := by omega
    have hx2 : ¬ x * 10 + (c.toNat - '0'.toNat) > 9223372036854775808 := by omega
    rw [leadingIntVal]
    simp only [if_neg hx, if_neg hx2]
    exact ih _ h

/-- One `<digits><unit>` segment with a single-character unit adds the
digits' value times the unit to the running total, for any positive fuel,
provided the overflow checks pass. -/
theorem parseSegsAux_digits_single (f d : Nat) (ds : List Char) (x : Char) (u v : Nat)
    (hne : ds ≠ []) (hdig : ∀ c ∈ ds, c.isDigit = true)
    (hx : x.isDigit = false) (hxdot : (x == '.') = false)
    (hu : unitNanos (String.mk [x]) = some u)
    (hv : leadingIntVal 0 ds = some v)
    (hvu : ¬ v > 9223372036854775808 / u)
    (hdv : ¬ d + v * u > 9223372036854775808) :
    parseSegsAux (f + 1) d (ds ++ [x]) = some (d + v * u) := by
  cases ds with
  | nil => exact absurd rfl hne
  | cons c cs =>
    have hc : c.isDigit = true := hdig c (by simp)
    have htake : ((c :: cs) ++ [x]).takeWhile Char.isDigit = c :: cs :=
      takeWhile_all_append_single _ _ _ hdig hx
    have hdrop : ((c :: cs) ++ [x]).dropWhile Char.isDigit = [x] :=
      dropWhile_all_append_single _ _ _ hdig hx
    have hxkeep : (fun ch => !(ch.isDigit || ch == '.')) x = true := by
      simp [hx, hxdot]
    show parseSegsAux (f + 1) d (c :: (cs ++ [x])) = _
    rw [parseSegsAux]
    simp only [hc, if_true]
    rw [show c :: (cs ++ [x]) = (c :: cs) ++ [x] from rfl, htake, hdrop]
    simp only [List.takeWhile_cons, List.dropWhile_cons, hxkeep, if_true,
      List.takeWhile_nil, List.dropWhile_nil]
    rw [hv]
    simp [hu, hvu, hdv, parseSegsAux]


/-- A non-empty all-digit string followed by `"h"` parses as that many
hours, provided the result is representable as an int64 nanosecond count
(otherwise Go's overflow checks reject it). -/
theorem parseDurationChars_digits_h (ds : List Char) (hne : ds ≠ [])
    (hdig : ∀ c ∈ ds, c.isDigit = true)
    (hbound : digitsVal ds * 3600000000000 ≤ 9223372036854775807) :
    parseDurationChars (ds ++ ['h'])
      = some ((digitsVal ds * 3600000000000 : Nat) : Int) := by
  cases ds with
  | nil => exact absurd rfl hne
  | cons c cs =>
    have hc : c.isDigit = true := hdig c (by simp)
    have hcm : c ≠ '-' := by
      intro h
      rw [h] at hc
      exact absurd hc (by decide)
    have hcp : c ≠ '+' := by
      intro h
      rw [h] at hc
      exact absurd hc (by decide)
    have hsign : ¬ (c = '-' ∨ c = '+') := by tauto
    have hbody0 : ¬ (c :: (cs ++ ['h'])) = ['0'] := by simp
    have hvle : digitsVal (c :: cs) ≤ 9223372036854775808 := by
      have h1 : digitsVal (c :: cs) ≤ digitsVal (c :: cs) * 3600000000000 :=
        Nat.le_mul_of_pos_right _ (by norm_num)
      omega
    have hv : leadingIntVal 0 (c :: cs) = some (digitsVal (c :: cs)) :=
      leadingIntVal_some (c :: cs) 0 hvle
    have hvu : ¬ digitsVal (c :: cs) > 9223372036854775808 / 3600000000000 := by
      omega
    have hdv : ¬ 0 + digitsVal (c :: cs) * 3600000000000 > 9223372036854775808 := by
      omega
    have hseg : parseSegs (c :: (cs ++ ['h']))
        = some (0 + digitsVal (c :: cs) * 3600000000000) := by
      unfold parseSegs
      rw [show (c :: (cs ++ ['h'])).length = (cs.length + 1) + 1 by simp]
      exact parseSegsAux_digits_single (cs.length + 1) 0 (c :: cs) 'h' 3600000000000
        (digitsVal (c :: cs)) (by simp) hdig (by decide) (by decide) (by decide)
        hv hvu hdv
    have hfin : ¬ 0 + digitsVal (c :: cs) * 3600000000000 > 9223372036854775807 := by
      omega
    show parseDurationChars (c :: (cs ++ ['h'])) = _
    rw [parseDurationChars]
    simp only [if_neg hsign, if_neg hbody0, hseg, if_neg hcm, if_neg hfin]
    simp

/-- A non-empty all-digit string other than `"0"` has no unit and fails to
parse as a duration. -/
theorem parseDurationChars_digits_noUnit (ds : List Char) (hne : ds ≠ [])
    (hdig : ∀ c ∈ ds, c.isDigit = true) (h0 : ds ≠ ['0']) :
    parseDurationChars ds = none := by
  cases ds with
  | nil => exact absurd rfl hne
  | cons c cs =>
    have hc : c.isDigit = true := hdig c (by simp)
    have hcm : c ≠ '-' := by
      intro h
      rw [h] at hc
      exact absurd hc (by decide)
    have hcp : c ≠ '+' := by
      intro h
      rw [h] at hc
      exact absurd hc (by decide)
    have hsign : ¬ (c = '-' ∨ c = '+') := by tauto
    have htake : (c :: cs).takeWhile Char.isDigit = c :: cs :=
      List.takeWhile_eq_self_iff.mpr (by simpa using hdig)
    have hdrop : (c :: cs).dropWhile Char.isDigit = [] :=
      List.dropWhile_eq_nil_iff.mpr (by simpa using hdig)
    have hseg : parseSegs (c :: cs) = none := by
      unfold parseSegs
      rw [show (c :: cs).length = cs.length + 1 from rfl]
      rw [parseSegsAux]
      simp only [hc, if_true, htake, hdrop, List.takeWhile_nil, List.dropWhile_nil]
      cases hl : leadingIntVal 0 (c :: cs) <;> simp [hl]
    rw [parseDurationChars]
    simp [if_neg hsign, h0, hseg]

/-- `String` append acts as list append on the character data. -/
theorem string_data_append (s t : String) : (s ++ t).data = s.data ++ t.data := by
  cases s
  cases t
  rfl

/-- C6 counterexample: for the unitless value `"48"`, the configuration
helper does interpret it as 48 hours, but the session variant's
`GenerateToken` — the code that actually determines the session TTL — fails
to parse it and issues nothing, instead of interpreting it in hours. -/
theorem C6_counterexample :
    getDurationEnvOrDefault "48" 86400000000000 = 48 * 3600000000000 ∧
    GenerateToken (some "x") "48" 0 7 []
      = (.err "invalid JWT_EXPIRES_IN value", []) := by
  decide

/-- C6 (amended): the session TTL is read from the `JWT_EXPIRES_IN` duration
setting and defaults to 24 hours when the setting is absent (in the
configuration helper and in `GenerateToken` alike).  A non-empty all-digit
value with no unit suffix whose hour count is representable as an int64
nanosecond duration is interpreted in hours by the configuration helper
`getDurationEnvOrDefault` (for a larger value, `time.ParseDuration`
overflows and the helper falls back to the default); the session-variant
`GenerateToken`, however, parses the raw value, so the same unitless value
(other than `"0"`) makes issuance fail rather than being interpreted in
hours. -/
theorem C6_ttl_config (d : Int) (value : String)
    (hne : value.toList ≠ []) (hdig : ∀ c ∈ value.toList, c.isDigit = true)
    (h0 : value.toList ≠ ['0'])
    (hbound : digitsVal value.toList * 3600000000000 ≤ 9223372036854775807) :
    getDurationEnvOrDefault "" d = d ∧
    parseDuration (effectiveExpiresIn "") = some 86400000000000 ∧
    getDurationEnvOrDefault value d
      = ((digitsVal value.toList * 3600000000000 : Nat) : Int) ∧
    (∀ sid now uid store, GenerateToken (some sid) value now uid store
      = (.err "invalid JWT_EXPIRES_IN value", store)) := by
  have hvne : value ≠ "" := by
    intro h
    rw [h] at hne
    exact hne rfl
  have hnohms : containsAnyHMS value = false := by
    simp only [containsAnyHMS, List.any_eq_false, Bool.or_eq_true, beq_iff_eq, not_or]
    intro c hcmem
    have hcd := hdig c hcmem
    refine ⟨⟨?_, ?_⟩, ?_⟩ <;> intro h <;> rw [h] at hcd <;>
      exact absurd hcd (by decide)
  have happ : (value ++ "h").toList = value.toList ++ ['h'] := by
    show (value ++ "h").data = value.data ++ ['h']
    rw [string_data_append]
  have hparse48 : parseDuration (value ++ "h")
      = some ((digitsVal value.toList * 3600000000000 : Nat) : Int) := by
    show parseDurationChars (value ++ "h").toList = _
    rw [happ]
    exact parseDurationChars_digits_h value.toList hne hdig hbound
  have hparseraw : parseDuration value = none :=
    parseDurationChars_digits_noUnit value.toList hne hdig h0
  refine ⟨rfl, by decide, ?_, ?_⟩
  · rw [getDurationEnvOrDefault, if_neg hvne]
    simp [hnohms, hparse48]
  · intro sid now uid store
    have heff : parseDuration (effectiveExpiresIn value) = none := by
      rw [effectiveExpiresIn, if_neg hvne]
      exact hparseraw
    simp [GenerateToken, heff]

/-- Closed instance of `C6_ttl_config`: the configuration helper reads the
unitless `"48"` as 48 hours. -/
theorem C6_witness :
    (("48" : String).toList ≠ [] ∧ (∀ c ∈ ("48" : String).toList, c.isDigit = true) ∧
      ("48" : String).toList ≠ ['0'] ∧
      digitsVal ("48" : String).toList * 3600000000000 ≤ 9223372036854775807) ∧
    getDurationEnvOrDefault "48" 86400000000000
      = ((digitsVal ("48" : String).toList * 3600000000000 : Nat) : Int) :=
  ⟨⟨by decide, by decide, by decide, by decide⟩,
    (C6_ttl_config 86400000000000 "48" (by decide) (by decide) (by decide)
      (by decide)).2.2.1⟩

/-! ## Claim C8 -/

/-- An element of `insertSorted le x l` is `x` or an element of `l`. -/
theorem mem_insertSorted (le : models.Task → models.Task → Bool)
    (x t : models.Task) :
    ∀ l : List models.Task, t ∈ services.insertSorted le x l → t = x ∨ t ∈ l := by
  intro l
  induction l with
  | nil =>
    intro h
    simpa [services.insertSorted] using h
  | cons u us ih =>
    intro h
    by_cases hle : le x u = true
    · rw [services.insertSorted, if_pos hle] at h
      exact List.mem_cons.mp h
    · rw [services.insertSorted, if_neg hle] at h
      rcases List.mem_cons.mp h with h1 | h2
      · exact Or.inr (by simp [h1])
      · rcases ih h2 with h3 | h4
        · exact Or.inl h3
        · exact Or.inr (by simp [h4])

/-- Sorting a result set does not add rows. -/
theorem mem_sortTasks (le : models.Task → models.Task → Bool) (t : models.Task) :
    ∀ l : List models.Task, t ∈ services.sortTasks le l → t ∈ l := by
  intro l
  induction l with
  | nil =>
    intro h
    simp [services.sortTasks] at h
  | cons u us ih =>
    intro h
    rw [services.sortTasks, List.foldr_cons] at h
    rcases mem_insertSorted le u t _ h with h1 | h2
    · simp [h1]
    · exact List.mem_cons_of_mem _ (ih h2)

/-- If no row carries both the wanted task id and the wanted owner, the
ownership-filtered query finds nothing. -/
theorem find_owned_none (db : services.TaskDB) (taskID userID : Nat)
    (h : ∀ t ∈ db, t.ID = taskID → t.UserID ≠ userID) :
    db.find? (services.ownedTaskRow taskID userID) = none := by
  apply List.find?_eq_none.mpr
  intro t ht hrow
  simp only [services.ownedTaskRow, Bool.and_eq_true, beq_iff_eq] at hrow
  exact h t ht hrow.1.2 hrow.2

/-- C8: every task operation filters by both the task id and the owning user
id.  When the task with the requested id is not owned by the requesting
user, `GetTaskByID` reports not-found, and `UpdateTask`, `UpdateTaskStatus`
and `DeleteTask` report not-found and leave the database unchanged; any task
returned by `GetTaskByID` carries the requested id and owner, and every task
listed by `GetTasks` belongs to the requesting user. -/
theorem C8_ownership_filter (db : services.TaskDB) (taskID userID : Nat)
    (req : services.TaskRequest) (sreq : services.TaskStatusRequest)
    (options : services.TaskFilterOptions) :
    ((∀ t ∈ db, t.ID = taskID → t.UserID ≠ userID) →
      services.GetTaskByID db taskID userID = .err "task not found") ∧
    (∀ t, services.GetTaskByID db taskID userID = .ok t →
      t.ID = taskID ∧ t.UserID = userID) ∧
    ((∀ t ∈ db, t.ID = taskID → t.UserID ≠ req.UserID) →
      services.UpdateTask db taskID req = (.err "task not found", db)) ∧
    ((∀ t ∈ db, t.ID = taskID → t.UserID ≠ sreq.UserID) →
      services.UpdateTaskStatus db taskID sreq = (.err "task not found", db)) ∧
    ((∀ t ∈ db, t.ID = taskID → t.UserID ≠ userID) →
      services.DeleteTask db taskID userID = (some "task not found", db)) ∧
    (∀ resp t, services.GetTasks db options = .ok resp → t ∈ resp.Tasks →
      t.UserID = options.UserID) := by
  have hget : ∀ uid : Nat, (∀ t ∈ db, t.ID = taskID → t.UserID ≠ uid) →
      services.GetTaskByID db taskID uid = .err "task not found" := by
    intro uid h
    rw [services.GetTaskByID, find_owned_none db taskID uid h]
  refine ⟨hget userID, ?_, ?_, ?_, ?_, ?_⟩
  · intro t hok
    rw [services.GetTaskByID] at hok
    cases hf : db.find? (services.ownedTaskRow taskID userID) with
    | none => rw [hf] at hok; exact absurd hok (by simp)
    | some t2 =>
      rw [hf] at hok
      have hrow := List.find?_some hf
      simp only [services.ownedTaskRow, Bool.and_eq_true, beq_iff_eq] at hrow
      injection hok with h2
      subst h2
      exact ⟨hrow.1.2, hrow.2⟩
  · intro h
    rw [services.UpdateTask, hget req.UserID h]
  · intro h
    rw [services.UpdateTaskStatus, hget sreq.UserID h]
  · intro h
    rw [services.DeleteTask, hget userID h]
  · intro resp t hresp hmem
    rw [services.GetTasks] at hresp
    dsimp only at hresp
    cases hcol : services.columnOf
        (if (options.SortBy == "") = true then "created_at" else options.SortBy) with
    | none => rw [hcol] at hresp; exact absurd hresp (by simp)
    | some col =>
      rw [hcol] at hresp
      cases hb : ((if (options.Order == "") = true then "desc" else options.Order) != "asc" &&
          (if (options.Order == "") = true then "desc" else options.Order) != "desc") with
      | true => rw [hb] at hresp; simp at hresp
      | false =>
        rw [hb] at hresp
        simp only [Bool.false_eq_true, if_false] at hresp
        injection hresp with h2
        subst h2
        dsimp only at hmem
        have hmem2 := List.mem_of_mem_take hmem
        have hmem3 := List.mem_of_mem_drop hmem2
        have hmem4 := mem_sortTasks _ t _ hmem3
        have hpred := (List.mem_filter.mp hmem4).2
        simp only [Bool.and_eq_true, beq_iff_eq] at hpred
        exact hpred.1.1.2

/-- Closed instance of `C8_ownership_filter`: a task owned by user 1 is
not-found for user 2. -/
theorem C8_witness :
    (∀ t ∈ ([⟨1, 1, "t", "", none, "medium", "todo", 0, 0, false⟩] : services.TaskDB),
      t.ID = 1 → t.UserID ≠ 2) ∧
    services.GetTaskByID [⟨1, 1, "t", "", none, "medium", "todo", 0, 0, false⟩] 1 2
      = .err "task not found" :=
  ⟨by decide,
    (C8_ownership_filter [⟨1, 1, "t", "", none, "medium", "todo", 0, 0, false⟩] 1 2
      ⟨"", "", none, "", 2⟩ ⟨"", 2⟩ ⟨2, "", "", "", "", 1, 10⟩).1 (by decide)⟩
